import Mathlib

/-!
A shallow embedding of the Runbar process-supervision and storage core.

The embedding covers three iterations of the process manager found in the
repository and the two storage layers:

* `PM6`      — the dependency-aware `ProcessManager` (src/unnamed/part_006)
* `PMCore`   — `ProcessManager` from src/src/core/processManager.ts; its
               `startService` body is shared with src/src/processManager.ts
* `Storage`  — the `Storage` class from src/src/storage.ts
* `SService` — the `StorageService` class from src/unnamed/part_004

JavaScript `Map<string, ManagedProcess>` is modelled as an association list
with first-match lookup; `Date` timestamps are integers; `uuidv4()` and
`new Date().toISOString()` are passed in as parameters; the Electron dialog
response and the OS facilities (`spawn`, `detect-port`, `lsof`) are supplied
by an `Env` record so the functions stay pure and executable.
-/

namespace Runbar

/-- `ServiceStatus` from types.ts: 'running' | 'stopped' | 'starting' |
'stopping' | 'error'. -/
inductive ServiceStatus where
  | stopped
  | starting
  | running
  | stopping
  | error
deriving DecidableEq, Repr

/-- The `Service` record.  Superset of the near-identical `Service`
interfaces in src/src/types.ts and src/src/shared/index.ts; the
`dependencies` and `startupDelay` fields are the ones read by the
dependency-aware manager in src/unnamed/part_006.  Optional string fields
model JS `undefined` as `""` or `none`. -/
structure Service where
  id : String := ""
  name : String
  path : String
  command : String
  port : Option Nat := none
  autoStart : Bool := false
  projectType : String := ""
  dependencies : List String := []
  startupDelay : Option Nat := none
  status : ServiceStatus := ServiceStatus.stopped
  logs : List String := []
  lastStarted : Option String := none
  lastStopped : Option String := none
  createdAt : String := ""
  updatedAt : String := ""
deriving DecidableEq, Repr

/-- The `Group` record from src/src/shared/index.ts. -/
structure Group where
  id : String := ""
  name : String
  services : List String := []
  autoStart : Bool := false
  lastRun : Option String := none
  createdAt : String := ""
  updatedAt : String := ""
deriving DecidableEq, Repr

/-- The `Settings` document. -/
structure Settings where
  version : String
  globalAutoStart : Bool := false
  discoveryMarkers : List String := []
  logStorageLimit : Nat := 100
  statusPollingInterval : Nat := 3000
  autoUpdateEnabled : Bool := true
deriving DecidableEq, Repr

/-- The `ConfigData` export/import envelope. -/
structure ConfigData where
  version : String
  exportDate : Option String := none
  services : List Service := []
  groups : List Group := []
  settings : Settings
deriving DecidableEq, Repr

/-- The observable part of a Node `ChildProcess` handle: its `pid`
(possibly undefined) and its `exitCode` (null while running). -/
structure ProcHandle where
  pid : Option Int := none
  exitCode : Option Int := none
deriving DecidableEq, Repr

/-- `ProcessInfo` from types.ts: pid, status, startTime, logs, optional
exit code and error message. -/
structure ProcessInfo where
  pid : Int
  status : ServiceStatus
  startTime : Int := 0
  logs : List String := []
  exitCode : Option Int := none
  error : Option String := none
deriving DecidableEq, Repr

/-- `ManagedProcess`: the per-path entry of the supervisor map.  The
`restartAttempts` and `lastRestart` fields exist only in the
dependency-aware variant (part_006); the other variants never read them
and leave them at their defaults. -/
structure ManagedProcess where
  process : Option ProcHandle
  info : ProcessInfo
  restartAttempts : Nat := 0
  lastRestart : Option Int := none
deriving DecidableEq, Repr

/-- The supervisor state: the `processes : Map<string, ManagedProcess>`
keyed by service path, as an association list with unique keys. -/
abbrev SupState : Type := List (String × ManagedProcess)

/-- `Map.get` / `Map.has`: first-match lookup by key. -/
def lookupProc : SupState → String → Option ManagedProcess
  | [], _ => none
  | (k, v) :: rest, p => if k = p then some v else lookupProc rest p

/-- `Map.set`: replace the entry of an existing key, else append. -/
def setProc : SupState → String → ManagedProcess → SupState
  | [], p, m => [(p, m)]
  | (k, v) :: rest, p, m =>
      if k = p then (p, m) :: rest else (k, v) :: setProc rest p m

/-- `Map.delete`: drop the entry with the given key. -/
def eraseProc : SupState → String → SupState
  | [], _ => []
  | (k, v) :: rest, p => if k = p then rest else (k, v) :: eraseProc rest p

/-- How many tracked entries a path has (exactly one for a tracked
service, by the map invariant). -/
def countKey (st : SupState) (p : String) : Nat :=
  st.countP (fun e => e.1 = p)

/-- The effective log limit: every variant guards the configured limit
with `logStorageLimit || 100`, so a falsy (0) limit falls back to 100. -/
def effLogLimit (limit : Nat) : Nat :=
  if limit = 0 then 100 else limit

/-- The `emitLog` closure shared verbatim by all three process-manager
variants: push the line, then shift the oldest line off the front if the
buffer exceeds the configured limit. -/
def emitLog (limit : Nat) (logs : List String) (line : String) : List String :=
  let l := logs ++ [line]
  if effLogLimit limit < l.length then l.drop 1 else l

/-- `getServiceStatus(servicePath)`, identical in
src/src/core/processManager.ts (lines 265-281) and
src/src/processManager.ts (lines 190-206): untracked means stopped; an
adopted entry (no handle) reports its stored status; a live handle with a
non-null exit code reports stopped regardless of the stored status;
otherwise running. -/
def getServiceStatus (st : SupState) (servicePath : String) : ServiceStatus :=
  match lookupProc st servicePath with
  | none => ServiceStatus.stopped
  | some managedProcess =>
    match managedProcess.process with
    | none => managedProcess.info.status
    | some pr =>
      match pr.exitCode with
      | some _ => ServiceStatus.stopped
      | none => ServiceStatus.running

/-- `getServiceLogs(servicePath)`: the tracked entry's log lines, empty
if untracked. -/
def getServiceLogs (st : SupState) (servicePath : String) : List String :=
  match lookupProc st servicePath with
  | none => []
  | some managed => managed.info.logs

/-- The ambient effects a start call can observe: the spawned child handle
(keyed by command and working directory), the wall clock, `detect-port`
(returns the requested port when it is free, another port when busy), the
`lsof` port-to-process lookup, and the button index the user picks in the
Electron dialog. -/
structure Env where
  now : Int := 0
  spawn : String → String → ProcHandle := fun _ _ => { pid := some 1000 }
  detectPort : Nat → Nat := fun p => p
  lsof : Nat → Option (String × String) := fun _ => none
  dialogResponse : Nat := 0

/-- JS `String.prototype.trim()`: strip leading and trailing
whitespace. -/
def jsTrim (s : String) : String :=
  String.mk (((s.toList.dropWhile Char.isWhitespace).reverse.dropWhile
    Char.isWhitespace).reverse)

/-- Numeric value of a digit run (the capture group of the port regexes,
and JS `parseInt` on the numeric pid strings printed by `lsof`). -/
def digitsVal (cs : List Char) : Nat :=
  cs.foldl (fun n c => n * 10 + (c.toNat - 48)) 0

/-- `parseInt(pid, 10)` for the numeric pid strings produced by `lsof`. -/
def parsePid (s : String) : Int :=
  Int.ofNat (digitsVal (s.toList.takeWhile Char.isDigit))

/-- Match the regex `--port[= ](\d+)` at the head of the character list:
the literal `--port`, one of `=` or space, then at least one digit. -/
def matchDashPortAt (cs : List Char) : Option Nat :=
  if cs.take 6 = ['-', '-', 'p', 'o', 'r', 't'] then
    match cs.drop 6 with
    | c :: rest =>
      if c = '=' ∨ c = ' ' then
        let ds := rest.takeWhile Char.isDigit
        if ds = [] then none else some (digitsVal ds)
      else none
    | [] => none
  else none

/-- Match the regex `PORT=(\d+)` at the head of the character list. -/
def matchEnvPortAt (cs : List Char) : Option Nat :=
  if cs.take 5 = ['P', 'O', 'R', 'T', '='] then
    let ds := (cs.drop 5).takeWhile Char.isDigit
    if ds = [] then none else some (digitsVal ds)
  else none

/-- Scan for the first position where `matchAt` succeeds, as a regex
`String.match` does. -/
def scanFor (matchAt : List Char → Option Nat) : List Char → Option Nat
  | [] => none
  | c :: rest =>
    match matchAt (c :: rest) with
    | some n => some n
    | none => scanFor matchAt rest

/-- The declared-port extraction of part_006 lines 40-44: the first
match of the dash-port regex, else the first match of the env-port
regex. -/
def parsePort (command : String) : Option Nat :=
  match scanFor matchDashPortAt command.toList with
  | some n => some n
  | none => scanFor matchEnvPortAt command.toList

/-- The outcome of a start call: the returned boolean, the resulting
supervisor map, the paths whose commands were actually spawned, and the
pids that were sent a kill signal. -/
structure StartResult where
  ok : Bool
  st : SupState
  spawned : List String := []
  killed : List Int := []
deriving DecidableEq, Repr

namespace PM6

/-- The entry written by the `Mark as Running` branch of the pre-spawn
port dialog (part_006 lines 71-84): no managed handle, status running,
a single adoption marker log line, fresh restart counters. -/
def adoptedEntry (env : Env) (pidStr : String) : ManagedProcess :=
  { process := none
    info :=
      { pid := parsePid pidStr
        status := ServiceStatus.running
        startTime := env.now
        logs := ["Adopted running process PID " ++ pidStr] } }

/-- The declared-port pre-spawn check of part_006 lines 39-102.  Returns
`Sum.inl` when `startService` returns early (adoption, kill, or cancel)
and `Sum.inr` with the unchanged state when spawning proceeds.  Dialog
buttons with a known occupant are `['Cancel', 'Mark as Running',
'Start Anyway', 'Kill Process']`; without one, `['Cancel',
'Start Anyway']`. -/
def portPhase (env : Env) (st : SupState) (s : Service) : Sum StartResult SupState :=
  match parsePort s.command with
  | none => Sum.inr st
  | some port =>
    if env.detectPort port = port then Sum.inr st
    else
      match env.lsof port with
      | some (pidStr, _) =>
        if env.dialogResponse = 1 then
          Sum.inl { ok := true, st := setProc st s.path (adoptedEntry env pidStr) }
        else if env.dialogResponse = 3 then
          Sum.inl { ok := false, st := st, killed := [parsePid pidStr] }
        else if env.dialogResponse = 2 then Sum.inr st
        else Sum.inl { ok := false, st := st }
      | none =>
        if env.dialogResponse = 1 then Sum.inr st
        else Sum.inl { ok := false, st := st }

/-- The tail of `startService` after the dependency phase (part_006
lines 39-168): the declared-port pre-spawn dialog (`portPhase`), then
the empty-command check, then the spawn through the shell with the
service path as working directory and the registration of the entry
with fresh restart counters. -/
def spawnPhase (env : Env) (st : SupState) (s : Service) : StartResult :=
  match portPhase env st s with
  | Sum.inl r => r
  | Sum.inr st2 =>
    if jsTrim s.command = "" then { ok := false, st := st2 }
    else
      let cwd := if s.path = "" then "." else s.path
      let child := env.spawn s.command cwd
      let info : ProcessInfo :=
        { pid := child.pid.getD (-1)
          status := ServiceStatus.running
          startTime := env.now }
      { ok := true
        st := setProc st2 s.path { process := some child, info := info }
        spawned := [s.path] }

/-- The mutual recursion of `startService` and `startDependencies`
(part_006 lines 27-173 and 331-365) as one function, structurally
recursive in a fuel bound so that it is kernel-computable (the source can
recurse forever on cyclic dependency lists).  `Sum.inl s` is a
`startService(s)` call; `Sum.inr deps` is the dependency loop of
`startDependencies` over the remaining dependency names.  Every
recursive call burns one unit of fuel; with fuel exhausted a start call
fails without side effects.

`startService`, in source order: the double-start guard on
`processes.has(service.path)`; starting declared dependencies (a failed
dependency throws, which the outer catch turns into `false`, keeping the
dependency side effects already performed); the declared-port pre-spawn
dialog (`portPhase`); the empty-command check; the spawn and
registration of the entry with fresh restart counters.

`startDependencies`, for each dependency name: resolve it in the stored
services list; a name that does not resolve logs a warning and is
skipped; a dependency whose path is already tracked (`processes.has`)
is skipped regardless of its actual status; otherwise `startService` is
invoked on it, and a failure throws, aborting the remaining
dependencies. -/
def run (env : Env) (registry : List Service) :
    Nat → SupState → Sum Service (List String) → StartResult
  | fuel, st, Sum.inl s =>
    match fuel with
    | 0 => { ok := false, st := st }
    | fuel + 1 =>
      if (lookupProc st s.path).isSome then { ok := false, st := st }
      else
        let d :=
          if s.dependencies.isEmpty then ({ ok := true, st := st } : StartResult)
          else run env registry fuel st (Sum.inr s.dependencies)
        if d.ok = false then
          { ok := false, st := d.st, spawned := d.spawned, killed := d.killed }
        else
          let r := spawnPhase env d.st s
          { ok := r.ok, st := r.st, spawned := d.spawned ++ r.spawned,
            killed := d.killed ++ r.killed }
  | fuel, st, Sum.inr deps =>
    match deps with
    | [] => { ok := true, st := st }
    | depName :: rest =>
      match fuel with
      | 0 => { ok := false, st := st }
      | fuel + 1 =>
        match registry.find? (fun sv => sv.name == depName) with
        | none => run env registry fuel st (Sum.inr rest)
        | some dependency =>
          if (lookupProc st dependency.path).isSome then
            run env registry fuel st (Sum.inr rest)
          else
            let r := run env registry fuel st (Sum.inl dependency)
            if r.ok then
              let r2 := run env registry fuel r.st (Sum.inr rest)
              { ok := r2.ok, st := r2.st, spawned := r.spawned ++ r2.spawned,
                killed := r.killed ++ r2.killed }
            else
              { ok := false, st := r.st, spawned := r.spawned, killed := r.killed }

/-- `startService(service)` (part_006 lines 27-173); see `PM6.run`. -/
def startService (fuel : Nat) (env : Env) (registry : List Service)
    (st : SupState) (s : Service) : StartResult :=
  run env registry fuel st (Sum.inl s)

/-- `startDependencies(service)` (part_006 lines 331-365); see
`PM6.run`. -/
def startDependencies (fuel : Nat) (env : Env) (registry : List Service)
    (st : SupState) (deps : List String) : StartResult :=
  run env registry fuel st (Sum.inr deps)

/-- The `child.on('exit')` handler (part_006 lines 138-150): mark the
info stopped, record `code || -1`, append a final log line, and — when
the service is flagged `autoStart` and the code is not 0 — schedule an
automatic restart via `setTimeout(() => this.startService(service),
2000)`.  Returns the updated info and whether that restart was
scheduled. -/
def onExit (s : Service) (logLimit : Nat) (info : ProcessInfo)
    (code : Option Int) : ProcessInfo × Bool :=
  let stored : Int :=
    match code with
    | some c => if c = 0 then -1 else c
    | none => -1
  let line := "Process exited with code " ++
    (match code with | some c => toString c | none => "null")
  ({ info with
      status := ServiceStatus.stopped
      exitCode := some stored
      logs := emitLog logLimit info.logs line },
   s.autoStart && code ≠ some 0)

/-- `checkServiceHealth(service)` (part_006 lines 280-321), the periodic
health-check tick for one service: nothing happens unless the tracked
entry has a live-spawned handle whose exit code is set.  Then: at 5 or
more recorded restart attempts the entry is deleted and auto-restart
stops; within 30 seconds of the recorded last restart nothing happens;
otherwise the attempt counter and timestamp are bumped on the entry,
which is immediately deleted, and a restart of `startService` is
scheduled.  Returns the new state and whether a restart was scheduled. -/
def checkServiceHealth (st : SupState) (s : Service) (now : Int) :
    SupState × Bool :=
  match lookupProc st s.path with
  | none => (st, false)
  | some managed =>
    match managed.process with
    | none => (st, false)
    | some pr =>
      match pr.exitCode with
      | none => (st, false)
      | some _ =>
        let withinCooldown : Bool :=
          match managed.lastRestart with
          | some t => decide (now - t < 30000)
          | none => false
        if 5 ≤ managed.restartAttempts then (eraseProc st s.path, false)
        else if withinCooldown then (st, false)
        else (eraseProc st s.path, true)

end PM6

namespace PMCore

/-- `startService(service)` of src/src/core/processManager.ts (lines
39-81); the body is shared with src/src/processManager.ts (lines
52-171): the double-start guard on `processes.has(service.path)`, the
empty-command check, then spawn through the shell with the service path
as working directory and registration of the entry.  These variants do
no dependency handling and no pre-spawn port probe (port conflicts are
only detected from log lines after the spawn). -/
def startService (env : Env) (st : SupState) (s : Service) : StartResult :=
  if (lookupProc st s.path).isSome then { ok := false, st := st }
  else if jsTrim s.command = "" then { ok := false, st := st }
  else
    let cwd := if s.path = "" then "." else s.path
    let child := env.spawn s.command cwd
    let info : ProcessInfo :=
      { pid := child.pid.getD (-1)
        status := ServiceStatus.running
        startTime := env.now }
    { ok := true
      st := setProc st s.path { process := some child, info := info }
      spawned := [s.path] }

/-- The outcome of the post-spawn port-conflict dialog: the new
supervisor state, the service's own log array after the dialog's pushes,
the pids killed, and how many times the full `startService` sequence was
re-invoked. -/
structure DialogResult where
  st : SupState
  logs : List String
  killed : List Int := []
  retries : Nat := 0
deriving DecidableEq, Repr

/-- `showPortInUseDialog` of src/src/core/processManager.ts (lines
167-217); src/src/processManager.ts lines 102-146 inline the same logic.
Buttons are `['Ignore', 'Mark as Running', 'Kill Process and Start']`.
`Mark as Running` replaces the entry for the service path with an
adopted one whose log array is a copy of the current logs plus an
adoption marker — appended without any limit check.  `Kill Process and
Start` requires a known occupant pid and port: it kills the pid, pushes
a log line (also unbounded), and re-invokes `startService` once; a
failed kill only pushes a failure line.  Any other response does
nothing. -/
def showPortInUseDialog (env : Env) (killOk : Bool) (response : Nat)
    (service : Service) (port : Option Nat)
    (processInfo : Option (String × String)) (logs : List String)
    (st : SupState) : DialogResult :=
  if response = 1 then
    let marker := "Adopted running process PID " ++
      (match processInfo with | some (pid, _) => pid | none => "?") ++
      (match port with | some p => " on port " ++ toString p | none => "")
    { st := setProc st service.path
        { process := none
          info :=
            { pid := match processInfo with
                     | some (pid, _) => parsePid pid
                     | none => -1
              status := ServiceStatus.running
              startTime := env.now
              logs := logs ++ [marker] } }
      logs := logs }
  else if response = 2 then
    match processInfo, port with
    | some (pidStr, _), some p =>
      if killOk then
        let r := startService env st service
        { st := r.st
          logs := logs ++ ["Killed process PID " ++ pidStr ++ " on port " ++ toString p]
          killed := [parsePid pidStr]
          retries := 1 }
      else
        { st := st, logs := logs ++ ["Failed to kill process PID " ++ pidStr] }
    | _, _ => { st := st, logs := logs }
  else { st := st, logs := logs }

end PMCore

/-- The persisted services document: either the bare-array form, the
legacy envelope form `{version, services}`, or something else entirely
(from a corrupt file). -/
inductive ServicesDoc where
  | arr (services : List Service)
  | envelope (version : String) (services : List Service)
  | malformed
deriving DecidableEq, Repr

/-- Whether a persisted services document is in the bare-array form. -/
def ServicesDoc.isArrayForm : ServicesDoc → Bool
  | ServicesDoc.arr _ => true
  | _ => false

/-- The persisted groups document, with the same two accepted shapes. -/
inductive GroupsDoc where
  | arr (groups : List Group)
  | envelope (version : String) (groups : List Group)
  | malformed
deriving DecidableEq, Repr

/-- The three persisted documents that back a storage instance. -/
structure StorageState where
  servicesDoc : ServicesDoc
  groupsDoc : GroupsDoc
  settingsDoc : Settings
deriving DecidableEq, Repr

namespace Storage

/-- `getServices()` of src/src/storage.ts (lines 110-139), as a function
of the already-read document: a bare array is returned as is, an object
with a `services` member yields that member, anything else yields the
empty list. -/
def getServices : ServicesDoc → List Service
  | ServicesDoc.arr services => services
  | ServicesDoc.envelope _ services => services
  | ServicesDoc.malformed => []

/-- `saveServices(services)` of src/src/storage.ts (lines 127-139): the
document written to disk is the envelope `{version: '1.0', services}`. -/
def saveServices (services : List Service) : ServicesDoc :=
  ServicesDoc.envelope "1.0" services

/-- `getGroups()` of src/src/storage.ts (lines 146-161). -/
def getGroups : GroupsDoc → List Group
  | GroupsDoc.arr groups => groups
  | GroupsDoc.envelope _ groups => groups
  | GroupsDoc.malformed => []

/-- `saveGroups(groups)` of src/src/storage.ts (lines 163-175). -/
def saveGroups (groups : List Group) : GroupsDoc :=
  GroupsDoc.envelope "1.0" groups

/-- `saveSettings(settings)` of src/src/storage.ts (lines 187-200): the
defaults are spread first, then the given settings, then `version` is
forced to '1.0'.  With every field present the spread reduces to forcing
the version. -/
def saveSettings (settings : Settings) : Settings :=
  { settings with version := "1.0" }

/-- The caller-supplied record of `addService` (src/src/storage.ts line
202): `name`, `path` and `command` are required, every other `Service`
field is optional and may be absent. -/
structure ServiceInput where
  name : String
  path : String
  command : String
  autoStart : Option Bool := none
  projectType : Option String := none
  status : Option ServiceStatus := none
  logs : Option (List String) := none
  lastStarted : Option String := none
  lastStopped : Option String := none
deriving DecidableEq, Repr

/-- The merge `{...existing, ...service}` performed when `addService`
finds an entry with the same path: every field present on the input
overwrites the stored one. -/
def mergeService (old : Service) (inp : ServiceInput) : Service :=
  { old with
    name := inp.name
    path := inp.path
    command := inp.command
    autoStart := inp.autoStart.getD old.autoStart
    projectType := inp.projectType.getD old.projectType
    status := inp.status.getD old.status
    logs := inp.logs.getD old.logs
    lastStarted := match inp.lastStarted with
                   | some v => some v
                   | none => old.lastStarted
    lastStopped := match inp.lastStopped with
                   | some v => some v
                   | none => old.lastStopped }

/-- The record pushed by `addService` when no entry has the input's
path: the input itself, with `autoStart` defaulted to false. -/
def pushService (inp : ServiceInput) : Service :=
  { name := inp.name
    path := inp.path
    command := inp.command
    autoStart := inp.autoStart.getD false
    projectType := inp.projectType.getD ""
    status := inp.status.getD ServiceStatus.stopped
    logs := inp.logs.getD []
    lastStarted := inp.lastStarted
    lastStopped := inp.lastStopped }

/-- The `findIndex`-then-assign-or-push body of `addService`
(src/src/storage.ts lines 210-218): replace the first entry whose path
equals the input's path with the merge, else append the new record. -/
def addServiceLoop : List Service → ServiceInput → List Service
  | [], inp => [pushService inp]
  | old :: rest, inp =>
    if old.path = inp.path then mergeService old inp :: rest
    else old :: addServiceLoop rest inp

/-- `addService(service)` of src/src/storage.ts (lines 202-226): read
the services, reject an input missing name, path or command (the thrown
`ValidationError` reaches the caller and nothing is saved), else merge
or push by path and save. -/
def addService (doc : ServicesDoc) (inp : ServiceInput) :
    Except String ServicesDoc :=
  if inp.name = "" ∨ inp.path = "" ∨ inp.command = "" then
    Except.error "Service must have name, path, and command"
  else
    Except.ok (saveServices (addServiceLoop (getServices doc) inp))

/-- `importConfig(configData)` of src/src/storage.ts (lines 308-332):
a document whose version is not '1.0' throws a `ValidationError` before
any write; otherwise the three documents are saved in turn.  (In the
source each section is guarded by JS truthiness of the field, which
always holds for the typed `ConfigData` record, arrays included.) -/
def importConfig (configData : ConfigData) (st : StorageState) :
    Except String Unit × StorageState :=
  if configData.version ≠ "1.0" then
    (Except.error "Invalid config format or version", st)
  else
    (Except.ok (),
     { servicesDoc := saveServices configData.services
       groupsDoc := saveGroups configData.groups
       settingsDoc := saveSettings configData.settings })

end Storage

namespace SService

/-- The per-service validation of `StorageService.validateServices`
(src/unnamed/part_004 lines 372-401): a new record is built with every
missing field defaulted — `uuidv4()` and `new Date().toISOString()` are
the `freshId` and `nowIso` parameters, the name defaults by position —
the status is always reset to stopped, and a record still missing name,
path or command is rejected.  Fields of the source `Service` record not
listed there (such as `dependencies`) are dropped to their defaults. -/
def validateService (freshId nowIso : String) (i : Nat) (s : Service) :
    Except String Service :=
  let v : Service :=
    { id := if s.id = "" then freshId else s.id
      name := if s.name = "" then "Service " ++ toString (i + 1) else s.name
      path := s.path
      command := s.command
      port := s.port
      autoStart := s.autoStart
      projectType := if s.projectType = "" then "unknown" else s.projectType
      status := ServiceStatus.stopped
      logs := s.logs
      lastStarted := s.lastStarted
      lastStopped := s.lastStopped
      createdAt := if s.createdAt = "" then nowIso else s.createdAt
      updatedAt := if s.updatedAt = "" then nowIso else s.updatedAt }
  if v.name = "" ∨ v.path = "" ∨ v.command = "" then
    Except.error "Service missing required fields"
  else Except.ok v

/-- The indexed `services.map` of `validateServices`; the first thrown
`ValidationError` aborts the whole map. -/
def validateServicesAux (freshId nowIso : String) :
    Nat → List Service → Except String (List Service)
  | _, [] => Except.ok []
  | i, s :: rest =>
    match validateService freshId nowIso i s with
    | Except.error e => Except.error e
    | Except.ok v =>
      match validateServicesAux freshId nowIso (i + 1) rest with
      | Except.error e => Except.error e
      | Except.ok vs => Except.ok (v :: vs)

/-- `validateServices(services)` (src/unnamed/part_004 lines 367-402). -/
def validateServices (freshId nowIso : String) (services : List Service) :
    Except String (List Service) :=
  validateServicesAux freshId nowIso 0 services

/-- The per-group validation of `validateGroups` (src/unnamed/part_004
lines 409-432); the defaulted name is never empty, so the required-field
check after it cannot fail. -/
def validateGroup (freshId nowIso : String) (i : Nat) (g : Group) :
    Except String Group :=
  let v : Group :=
    { id := if g.id = "" then freshId else g.id
      name := if g.name = "" then "Group " ++ toString (i + 1) else g.name
      services := g.services
      autoStart := g.autoStart
      lastRun := g.lastRun
      createdAt := if g.createdAt = "" then nowIso else g.createdAt
      updatedAt := if g.updatedAt = "" then nowIso else g.updatedAt }
  if v.name = "" then Except.error "Group missing required fields"
  else Except.ok v

/-- The indexed `groups.map` of `validateGroups`. -/
def validateGroupsAux (freshId nowIso : String) :
    Nat → List Group → Except String (List Group)
  | _, [] => Except.ok []
  | i, g :: rest =>
    match validateGroup freshId nowIso i g with
    | Except.error e => Except.error e
    | Except.ok v =>
      match validateGroupsAux freshId nowIso (i + 1) rest with
      | Except.error e => Except.error e
      | Except.ok vs => Except.ok (v :: vs)

/-- `validateGroups(groups)` (src/unnamed/part_004 lines 404-433). -/
def validateGroups (freshId nowIso : String) (groups : List Group) :
    Except String (List Group) :=
  validateGroupsAux freshId nowIso 0 groups

/-- `validateSettings(settings)` (src/unnamed/part_004 lines 435-446):
with the typed record, only the version-nonempty check can fail. -/
def validateSettings (settings : Settings) : Except String Settings :=
  if settings.version = "" then
    Except.error "Settings missing required fields"
  else Except.ok settings

/-- `StorageService.saveServices(services)` (src/unnamed/part_004 lines
96-108): validation first (a failure throws and nothing is written),
then the validated list is written as a bare array. -/
def saveServices (freshId nowIso : String) (services : List Service) :
    Except String ServicesDoc :=
  match validateServices freshId nowIso services with
  | Except.error e => Except.error e
  | Except.ok vs => Except.ok (ServicesDoc.arr vs)

/-- `StorageService.getServices()` (src/unnamed/part_004 lines 69-94) as
a function of the already-read document: an envelope is unwrapped and
immediately rewritten to disk as a bare array of the raw entries, then
the entries are validated; a validation failure is caught and yields the
empty list.  Returns the services handed to the caller together with the
document left on disk. -/
def getServices (freshId nowIso : String) (doc : ServicesDoc) :
    List Service × ServicesDoc :=
  match doc with
  | ServicesDoc.envelope _ services =>
    (match validateServices freshId nowIso services with
     | Except.ok vs => vs
     | Except.error _ => [],
     ServicesDoc.arr services)
  | ServicesDoc.arr services =>
    (match validateServices freshId nowIso services with
     | Except.ok vs => vs
     | Except.error _ => [],
     doc)
  | ServicesDoc.malformed => ([], doc)

/-- `StorageService.importConfig(configData)` (src/unnamed/part_004
lines 342-364): validate the three sections — there is no check of the
document's own `version` field — back up, then overwrite all three
persisted documents. -/
def importConfig (freshId nowIso : String) (configData : ConfigData)
    (st : StorageState) : Except String Unit × StorageState :=
  match validateServices freshId nowIso configData.services with
  | Except.error e => (Except.error e, st)
  | Except.ok vs =>
    match validateGroups freshId nowIso configData.groups with
    | Except.error e => (Except.error e, st)
    | Except.ok vg =>
      match validateSettings configData.settings with
      | Except.error e => (Except.error e, st)
      | Except.ok vset =>
        (Except.ok (),
         { servicesDoc := ServicesDoc.arr vs
           groupsDoc := GroupsDoc.arr vg
           settingsDoc := vset })

end SService

/-! ### Concrete fixtures

Closed inputs used by the witnesses and counterexamples below. -/

/-- A tracked entry with a live handle. -/
def fxEntry : ManagedProcess :=
  { process := some { pid := some 42 }
    info := { pid := 42, status := ServiceStatus.running } }

/-- The service of the spec's own walk-through: `{name:"API", path:"/p",
command:"npm start"}`. -/
def fxSvcApi : Service := { name := "API", path := "/p", command := "npm start" }

/-- A state in which `/p` is already tracked. -/
def fxStTracked : SupState := [("/p", fxEntry)]

/-- The default environment: free ports, no occupant, dialog answered
with button 0. -/
def fxEnv : Env := {}

/-- A dependency service. -/
def fxSvcDb : Service := { name := "db", path := "/db", command := "redis-server" }

/-- A service that declares `db` as dependency. -/
def fxSvcWithDep : Service :=
  { name := "api", path := "/api", command := "npm start", dependencies := ["db"] }

/-- A state in which the `db` dependency is tracked but its process has
exited with code 1 (the exit handler has already marked it stopped). -/
def fxStDbStopped : SupState :=
  [("/db",
    { process := some { pid := some 77, exitCode := some 1 }
      info := { pid := 77, status := ServiceStatus.stopped, exitCode := some 1 } })]

/-- A service whose command is whitespace only but which declares a
dependency. -/
def fxSvcEmptyCmd : Service :=
  { name := "web", path := "/web", command := "   ", dependencies := ["db"] }

/-- A dependency whose own command is empty, so its start fails. -/
def fxSvcDepBroken : Service := { name := "db", path := "/db", command := "" }

/-- A service whose start command declares port 3000. -/
def fxSvcPort : Service :=
  { name := "api", path := "/api", command := "node server.js --port=3000" }

/-- An environment in which port 3000 is busy, `lsof` identifies the
occupant as pid 4242, and the user picks the kill button (index 3 of the
part_006 dialog). -/
def fxBusyEnv : Env :=
  { detectPort := fun _ => 9999
    lsof := fun _ => some ("4242", "node")
    dialogResponse := 3 }

/-- An auto-restarting service. -/
def fxSvcCrash : Service :=
  { name := "worker", path := "/w", command := "node worker.js", autoStart := true }

/-- The info record of a running process. -/
def fxInfoRun : ProcessInfo := { pid := 42, status := ServiceStatus.running }

/-- A log buffer filled to a configured limit of 2 through `emitLog`. -/
def fxLogsFull : List String := emitLog 2 (emitLog 2 [] "line one") "line two"

/-- A tracked entry whose handle has exited with code 0 while the stored
status still says running (not yet reconciled by the poller). -/
def fxEntryStale : ManagedProcess :=
  { process := some { pid := some 5, exitCode := some 0 }
    info := { pid := 5, status := ServiceStatus.running } }

/-- An adopted entry: no managed handle, status taken from the info. -/
def fxEntryAdopted : ManagedProcess :=
  { process := none
    info := { pid := 9, status := ServiceStatus.running } }

/-- A crashed tracked entry that has reached the restart ceiling. -/
def fxEntryMaxed : ManagedProcess :=
  { process := some { pid := some 9, exitCode := some 1 }
    info := { pid := 9, status := ServiceStatus.stopped }
    restartAttempts := 5
    lastRestart := some 0 }

/-- A crashed tracked entry one attempt in, 1 second after its last
restart. -/
def fxEntryCooling : ManagedProcess :=
  { process := some { pid := some 9, exitCode := some 1 }
    info := { pid := 9, status := ServiceStatus.stopped }
    restartAttempts := 1
    lastRestart := some 0 }

/-- A fully-populated, already-validated service record. -/
def fxSvcValid : Service :=
  { id := "svc-1", name := "API", path := "/p", command := "npm start"
    projectType := "nodejs", createdAt := "2024-01-01", updatedAt := "2024-01-01" }

/-- A settings document with a version. -/
def fxSettings : Settings := { version := "1.0" }

/-- Empty persisted storage. -/
def fxStorage0 : StorageState :=
  { servicesDoc := ServicesDoc.arr [], groupsDoc := GroupsDoc.arr []
    settingsDoc := fxSettings }

/-- An import document with an empty (missing) top-level version but
valid contents. -/
def fxCfgNoVersion : ConfigData :=
  { version := "", services := [fxSvcValid], groups := [], settings := fxSettings }

/-- An import document with an unsupported version. -/
def fxCfgV2 : ConfigData := { version := "2.0", settings := fxSettings }

/-- An `addService` input for path `/p`. -/
def fxInput : Storage.ServiceInput :=
  { name := "API", path := "/p", command := "npm start" }

/-- A second `addService` input for the same path `/p`. -/
def fxInput2 : Storage.ServiceInput :=
  { name := "API v2", path := "/p", command := "npm run dev" }

/-- A stored service at a different path. -/
def fxOther : Service := { name := "Other", path := "/q", command := "make run" }

/-- A crashed tracked entry with fresh restart counters (the shape every
restart or manual start recreates). -/
def fxEntryCrashed : ManagedProcess :=
  { process := some { pid := some 9, exitCode := some 1 }
    info := { pid := 9, status := ServiceStatus.stopped } }

/-- A service whose command is a single space and which declares no
dependencies. -/
def fxSvcBlank : Service := { name := "idle", path := "/i", command := " " }

/-- The normalisation `StorageService.validateService` applies to an
already-complete record: the status is forced to stopped and the fields
absent from the part_004 `Service` interface stay at their defaults. -/
def svcNorm (s : Service) : Service :=
  { s with
    status := ServiceStatus.stopped
    dependencies := []
    startupDelay := none }

/-- A service record every one of whose defaultable string fields is
present, as produced by a prior validation pass (the fields
`dependencies` and `startupDelay` do not exist in the part_004 `Service`
interface and play no role there). -/
def normalizedService (s : Service) : Prop :=
  s.id ≠ "" ∧ s.name ≠ "" ∧ s.path ≠ "" ∧ s.command ≠ "" ∧
  s.projectType ≠ "" ∧ s.createdAt ≠ "" ∧ s.updatedAt ≠ ""

instance (s : Service) : Decidable (normalizedService s) := by
  unfold normalizedService
  infer_instance

/-! ### Helper lemmas on the supervisor map -/

theorem lookupProc_setProc_self (st : SupState) (p : String) (m : ManagedProcess) :
    lookupProc (setProc st p m) p = some m := by
  induction st with
  | nil => simp [setProc, lookupProc]
  | cons e rest ih =>
    by_cases h : e.1 = p
    · simp [setProc, h, lookupProc]
    · simpa [setProc, h, lookupProc] using ih

theorem lookupProc_setProc_ne (st : SupState) (p q : String) (m : ManagedProcess)
    (h : q ≠ p) : lookupProc (setProc st q m) p = lookupProc st p := by
  induction st with
  | nil => simp [setProc, lookupProc, h]
  | cons e rest ih =>
    by_cases he : e.1 = q
    · simp [setProc, he, lookupProc, h]
    · simp [setProc, he, lookupProc]
      split <;> simp_all

theorem lookupProc_isSome_setProc (st : SupState) (p q : String)
    (m : ManagedProcess) (h : (lookupProc st p).isSome) :
    (lookupProc (setProc st q m) p).isSome := by
  by_cases hq : q = p
  · subst hq
    simp [lookupProc_setProc_self]
  · simpa [lookupProc_setProc_ne st p q m hq] using h

theorem setProc_eq_append (st : SupState) (p : String) (m : ManagedProcess)
    (h : lookupProc st p = none) : setProc st p m = st ++ [(p, m)] := by
  induction st with
  | nil => simp [setProc]
  | cons e rest ih =>
    by_cases he : e.1 = p
    · simp [lookupProc, he] at h
    · simp [lookupProc, he] at h
      simp [setProc, he, ih h]

theorem countKey_of_lookup_none (st : SupState) (p : String)
    (h : lookupProc st p = none) : countKey st p = 0 := by
  induction st with
  | nil => simp [countKey]
  | cons e rest ih =>
    by_cases he : e.1 = p
    · simp [lookupProc, he] at h
    · simp [lookupProc, he] at h
      simpa [countKey, List.countP_cons, he] using ih h

/-! ### Helper lemmas on the part_006 start sequence -/

theorem portPhase_spec (env : Env) (st : SupState) (s : Service) :
    PM6.portPhase env st s = Sum.inr st ∨
    (∃ ks, PM6.portPhase env st s =
      Sum.inl { ok := false, st := st, killed := ks }) ∨
    (∃ pidStr, PM6.portPhase env st s =
      Sum.inl { ok := true, st := setProc st s.path (PM6.adoptedEntry env pidStr) }) := by
  unfold PM6.portPhase
  cases hp : parsePort s.command with
  | none => exact Or.inl rfl
  | some port =>
    by_cases hd : env.detectPort port = port
    · exact Or.inl (by simp [hd])
    · cases hl : env.lsof port with
      | none =>
        by_cases h1 : env.dialogResponse = 1
        · exact Or.inl (by simp [hd, hl, h1])
        · exact Or.inr (Or.inl ⟨[], by simp [hd, hl, h1]⟩)
      | some pr =>
        obtain ⟨pidStr, cmdName⟩ := pr
        by_cases h1 : env.dialogResponse = 1
        · exact Or.inr (Or.inr ⟨pidStr, by simp [hd, hl, h1]⟩)
        · by_cases h3 : env.dialogResponse = 3
          · exact Or.inr (Or.inl ⟨[parsePid pidStr], by simp [hd, hl, h1, h3]⟩)
          · by_cases h2 : env.dialogResponse = 2
            · exact Or.inl (by simp [hd, hl, h1, h3, h2])
            · exact Or.inr (Or.inl ⟨[], by simp [hd, hl, h1, h3, h2]⟩)

theorem spawnPhase_of_ok_true (env : Env) (st : SupState) (s : Service)
    (h : (PM6.spawnPhase env st s).ok = true) :
    ∃ m, m.restartAttempts = 0 ∧
      (PM6.spawnPhase env st s).st = setProc st s.path m := by
  unfold PM6.spawnPhase at h ⊢
  rcases portPhase_spec env st s with hp | ⟨ks, hp⟩ | ⟨pidStr, hp⟩ <;>
    rw [hp] at h ⊢
  · dsimp only at h ⊢
    by_cases hc : jsTrim s.command = ""
    · simp [hc] at h
    · rw [if_neg hc] at h ⊢
      exact ⟨_, rfl, rfl⟩
  · simp at h
  · exact ⟨PM6.adoptedEntry env pidStr, rfl, rfl⟩

theorem spawnPhase_mono (env : Env) (st : SupState) (s : Service) (p : String)
    (h : (lookupProc st p).isSome) :
    (lookupProc (PM6.spawnPhase env st s).st p).isSome := by
  unfold PM6.spawnPhase
  rcases portPhase_spec env st s with hp | ⟨ks, hp⟩ | ⟨pidStr, hp⟩ <;> rw [hp]
  · dsimp only
    split
    · exact h
    · exact lookupProc_isSome_setProc st p s.path _ h
  · exact h
  · exact lookupProc_isSome_setProc st p s.path _ h

theorem run_mono (env : Env) (reg : List Service) :
    ∀ (fuel : Nat) (input : Sum Service (List String)) (st : SupState)
      (p : String), (lookupProc st p).isSome →
      (lookupProc (PM6.run env reg fuel st input).st p).isSome := by
  intro fuel
  induction fuel with
  | zero =>
    intro input st p h
    cases input with
    | inl s => simpa [PM6.run] using h
    | inr deps => cases deps <;> simpa [PM6.run] using h
  | succ fuel ih =>
    intro input st p h
    cases input with
    | inl s =>
      simp only [PM6.run]
      split
      · exact h
      · by_cases hni : s.dependencies.isEmpty
        · rw [if_pos hni]
          exact spawnPhase_mono env st s p h
        · rw [if_neg hni]
          split
          · exact ih (Sum.inr s.dependencies) st p h
          · exact spawnPhase_mono env _ s p (ih (Sum.inr s.dependencies) st p h)
    | inr deps =>
      cases deps with
      | nil => simpa [PM6.run] using h
      | cons depName rest =>
        simp only [PM6.run]
        cases hf : reg.find? (fun sv => sv.name == depName) with
        | none => exact ih (Sum.inr rest) st p h
        | some dependency =>
          dsimp only
          split
          · exact ih (Sum.inr rest) st p h
          · have hr := ih (Sum.inl dependency) st p h
            split
            · exact ih (Sum.inr rest) _ p hr
            · exact hr

theorem run_inl_ok_tracked (env : Env) (reg : List Service) (fuel : Nat)
    (st : SupState) (s : Service)
    (h : (PM6.run env reg fuel st (Sum.inl s)).ok = true) :
    ∃ m, m.restartAttempts = 0 ∧
      lookupProc (PM6.run env reg fuel st (Sum.inl s)).st s.path = some m := by
  cases fuel with
  | zero => simp [PM6.run] at h
  | succ fuel =>
    simp only [PM6.run] at h ⊢
    by_cases hg : (lookupProc st s.path).isSome
    · rw [if_pos hg] at h
      simp at h
    · rw [if_neg hg] at h ⊢
      by_cases hni : s.dependencies.isEmpty
      · rw [if_pos hni] at h ⊢
        obtain ⟨m, hm0, hmst⟩ := spawnPhase_of_ok_true env st s h
        refine ⟨m, hm0, ?_⟩
        show lookupProc (PM6.spawnPhase env st s).st s.path = some m
        rw [hmst]
        exact lookupProc_setProc_self _ _ _
      · rw [if_neg hni] at h ⊢
        by_cases hok : (PM6.run env reg fuel st (Sum.inr s.dependencies)).ok = false
        · rw [if_pos hok] at h
          simp at h
        · rw [if_neg hok] at h ⊢
          obtain ⟨m, hm0, hmst⟩ := spawnPhase_of_ok_true env
            (PM6.run env reg fuel st (Sum.inr s.dependencies)).st s h
          refine ⟨m, hm0, ?_⟩
          show lookupProc
            (PM6.spawnPhase env (PM6.run env reg fuel st (Sum.inr s.dependencies)).st s).st
            s.path = some m
          rw [hmst]
          exact lookupProc_setProc_self _ _ _

theorem startService_core_tracked (env : Env) (st : SupState) (s : Service)
    (h : (lookupProc st s.path).isSome) :
    PMCore.startService env st s = { ok := false, st := st } := by
  unfold PMCore.startService
  rw [if_pos h]

/-! ### C1 — the double-start guard -/

/-- C1: if the supervisor's process map already holds an entry for the
service's path, `startService` returns false and leaves the state
untouched — nothing is spawned or killed, no entry is added or modified
(guard at src/src/core/processManager.ts lines 41-44,
src/src/processManager.ts lines 54-57, and part_006 lines 29-32); and
consequently, after a successful start from an untracked state, a second
start of the same service returns false, changes nothing, and the map
holds exactly one entry for that path. -/
theorem C1_double_start_guard :
    (∀ (env : Env) (st : SupState) (s : Service),
      (lookupProc st s.path).isSome →
      PMCore.startService env st s = { ok := false, st := st }) ∧
    (∀ (fuel : Nat) (env : Env) (reg : List Service) (st : SupState) (s : Service),
      (lookupProc st s.path).isSome →
      PM6.startService (fuel + 1) env reg st s = { ok := false, st := st }) ∧
    (∀ (env : Env) (st : SupState) (s : Service),
      lookupProc st s.path = none →
      (PMCore.startService env st s).ok = true →
      ∀ env2 : Env,
        PMCore.startService env2 (PMCore.startService env st s).st s =
          { ok := false, st := (PMCore.startService env st s).st } ∧
        countKey (PMCore.startService env st s).st s.path = 1) := by
  refine ⟨?_, ?_, ?_⟩
  · exact startService_core_tracked
  · intro fuel env reg st s h
    show PM6.run env reg (fuel + 1) st (Sum.inl s) = _
    simp only [PM6.run]
    rw [if_pos h]
  · intro env st s h hok env2
    have hg : ¬ (lookupProc st s.path).isSome = true := by simp [h]
    by_cases hc : jsTrim s.command = ""
    · exfalso
      unfold PMCore.startService at hok
      rw [if_neg hg, if_pos hc] at hok
      simp at hok
    · have hst : (PMCore.startService env st s).st =
          setProc st s.path
            { process := some (env.spawn s.command (if s.path = "" then "." else s.path))
              info :=
                { pid := (env.spawn s.command (if s.path = "" then "." else s.path)).pid.getD (-1)
                  status := ServiceStatus.running
                  startTime := env.now } } := by
        unfold PMCore.startService
        rw [if_neg hg, if_neg hc]
      constructor
      · exact startService_core_tracked env2 _ s
          (by rw [hst]; simp [lookupProc_setProc_self])
      · rw [hst, setProc_eq_append st s.path _ h]
        have h0 := countKey_of_lookup_none st s.path h
        unfold countKey at h0 ⊢
        rw [List.countP_append, h0]
        simp

/-- Witness for C1 at the spec's walk-through service `{name:"API",
path:"/p", command:"npm start"}`. -/
theorem C1_double_start_guard_witness :
    PMCore.startService fxEnv fxStTracked fxSvcApi = { ok := false, st := fxStTracked } ∧
    PM6.startService 1 fxEnv [] fxStTracked fxSvcApi = { ok := false, st := fxStTracked } ∧
    (PMCore.startService fxEnv (PMCore.startService fxEnv [] fxSvcApi).st fxSvcApi =
      { ok := false, st := (PMCore.startService fxEnv [] fxSvcApi).st } ∧
     countKey (PMCore.startService fxEnv [] fxSvcApi).st fxSvcApi.path = 1) :=
  ⟨C1_double_start_guard.1 fxEnv fxStTracked fxSvcApi (by decide),
   C1_double_start_guard.2.1 0 fxEnv [] fxStTracked fxSvcApi (by decide),
   C1_double_start_guard.2.2 fxEnv [] fxSvcApi (by decide) (by decide) fxEnv⟩

/-! ### C9 — `getServiceStatus` is a pure read of the tracked entry -/

/-- C9: `getServiceStatus` returns stopped for any untracked path;
for a tracked entry whose live handle reports a non-null exit code it
returns stopped whatever the stored status says (the poller may not have
reconciled it yet); an adopted entry (no handle) reports its stored
status, and a tracked entry with a live, not-exited handle reports
running (src/src/core/processManager.ts lines 265-281 and
src/src/processManager.ts lines 190-206). -/
theorem C9_getServiceStatus :
    (∀ (st : SupState) (p : String), lookupProc st p = none →
      getServiceStatus st p = ServiceStatus.stopped) ∧
    (∀ (st : SupState) (p : String) (m : ManagedProcess) (pr : ProcHandle) (c : Int),
      lookupProc st p = some m → m.process = some pr → pr.exitCode = some c →
      getServiceStatus st p = ServiceStatus.stopped) ∧
    (∀ (st : SupState) (p : String) (m : ManagedProcess),
      lookupProc st p = some m → m.process = none →
      getServiceStatus st p = m.info.status) ∧
    (∀ (st : SupState) (p : String) (m : ManagedProcess) (pr : ProcHandle),
      lookupProc st p = some m → m.process = some pr → pr.exitCode = none →
      getServiceStatus st p = ServiceStatus.running) := by
  refine ⟨?_, ?_, ?_, ?_⟩
  · intro st p h
    simp [getServiceStatus, h]
  · intro st p m pr c h1 h2 h3
    simp [getServiceStatus, h1, h2, h3]
  · intro st p m h1 h2
    simp [getServiceStatus, h1, h2]
  · intro st p m pr h1 h2 h3
    simp [getServiceStatus, h1, h2, h3]

/-- Witness for C9: an untracked path, a stale tracked entry whose
handle has exited, an adopted entry, and a live entry. -/
theorem C9_getServiceStatus_witness :
    getServiceStatus [] "/p" = ServiceStatus.stopped ∧
    getServiceStatus [("/s", fxEntryStale)] "/s" = ServiceStatus.stopped ∧
    getServiceStatus [("/a", fxEntryAdopted)] "/a" = ServiceStatus.running ∧
    getServiceStatus [("/p", fxEntry)] "/p" = ServiceStatus.running :=
  ⟨C9_getServiceStatus.1 [] "/p" rfl,
   C9_getServiceStatus.2.1 [("/s", fxEntryStale)] "/s" fxEntryStale
     { pid := some 5, exitCode := some 0 } 0 rfl rfl rfl,
   C9_getServiceStatus.2.2.1 [("/a", fxEntryAdopted)] "/a" fxEntryAdopted rfl rfl,
   C9_getServiceStatus.2.2.2 [("/p", fxEntry)] "/p" fxEntry { pid := some 42 } rfl rfl rfl⟩

/-! ### C6 — import version check -/

/-- C6 (amended): `Storage.importConfig` (src/src/storage.ts lines
308-332) rejects a document whose version differs from '1.0' with a
`ValidationError` and leaves all three persisted documents exactly as
they were; the `StorageService` variant (src/unnamed/part_004 lines
342-364), by contrast, never inspects the document's own version — see
the counterexample. -/
theorem C6_import_version_reject :
    ∀ (configData : ConfigData) (st : StorageState),
      configData.version ≠ "1.0" →
      Storage.importConfig configData st =
        (Except.error "Invalid config format or version", st) := by
  intro cfg st h
  unfold Storage.importConfig
  rw [if_pos h]

/-- Witness for C6 at a version-2.0 document over a concrete state. -/
theorem C6_import_version_reject_witness :
    Storage.importConfig fxCfgV2 fxStorage0 =
      (Except.error "Invalid config format or version", fxStorage0) :=
  C6_import_version_reject fxCfgV2 fxStorage0 (by decide)

/-- Counterexample to C6 as stated: `StorageService.importConfig`
accepts a document whose version field is empty (missing) — its
validation never looks at the top-level version — and overwrites the
persisted services document. -/
theorem C6_import_no_version_check :
    fxCfgNoVersion.version = "" ∧
    (SService.importConfig "uuid-1" "2024-06-01" fxCfgNoVersion fxStorage0).1 =
      Except.ok () ∧
    (SService.importConfig "uuid-1" "2024-06-01" fxCfgNoVersion fxStorage0).2.servicesDoc ≠
      fxStorage0.servicesDoc := by
  refine ⟨rfl, rfl, by decide⟩

/-! ### C7 — the kill-and-start resolution -/

/-- C7 (amended): in the post-spawn conflict dialog shared by
src/src/core/processManager.ts (lines 204-215) and
src/src/processManager.ts (lines 136-145), choosing `Kill Process and
Start` with a known occupant pid and port and a successful kill sends
the termination signal to that pid and re-invokes the full
`startService` sequence exactly once; the pre-spawn dialog of part_006
offers only `Kill Process`, which kills the occupant and aborts without
any retry — see the counterexample. -/
theorem C7_kill_and_start_retry :
    ∀ (env : Env) (st : SupState) (s : Service) (pidStr cmdName : String)
      (p : Nat) (logs : List String),
      PMCore.showPortInUseDialog env true 2 s (some p) (some (pidStr, cmdName)) logs st =
        { st := (PMCore.startService env st s).st
          logs := logs ++ ["Killed process PID " ++ pidStr ++ " on port " ++ toString p]
          killed := [parsePid pidStr]
          retries := 1 } := by
  intro env st s pidStr cmdName p logs
  rfl

/-- Counterexample to C7 as stated: in the part_006 pre-spawn dialog,
selecting the kill resolution (button 3, `Kill Process`) for a busy
declared port kills the occupant pid 4242 and returns false with no
retry — nothing is spawned and the service stays untracked, where the
claim demands one retry of the full start sequence. -/
theorem C7_kill_without_retry :
    PM6.startService 5 fxBusyEnv [] [] fxSvcPort =
      { ok := false, st := [], killed := [4242] } := by decide

/-! ### C2 — the bounded log ring buffer -/

theorem effLogLimit_pos (limit : Nat) : 1 ≤ effLogLimit limit := by
  unfold effLogLimit
  split <;> omega

/-- C2 (amended): every line appended through the `emitLog` closure
keeps the buffer within the effective configured limit, and appending to
a full buffer evicts the oldest line first (FIFO); the port-conflict
adoption path, however, copies the buffer and appends its marker without
any eviction and so can leave the adopted entry one line over the limit
— see the counterexample. -/
theorem C2_log_buffer_bound :
    (∀ (limit : Nat) (logs : List String) (line : String),
      logs.length ≤ effLogLimit limit →
      (emitLog limit logs line).length ≤ effLogLimit limit) ∧
    (∀ (limit : Nat) (logs : List String) (line : String),
      logs.length = effLogLimit limit →
      emitLog limit logs line = logs.drop 1 ++ [line]) := by
  constructor
  · intro limit logs line h
    unfold emitLog
    dsimp only
    have hl : (logs ++ [line]).length = logs.length + 1 := by simp
    split
    · rename_i hlt
      rw [List.length_drop, hl]
      omega
    · rename_i hge
      rw [hl]
      rw [hl] at hge
      omega
  · intro limit logs line h
    have hpos := effLogLimit_pos limit
    unfold emitLog
    dsimp only
    rw [if_pos (by
      simp only [List.length_append, List.length_singleton, h]
      omega)]
    have hlen : 1 ≤ logs.length := by omega
    rw [List.drop_append_of_le_length hlen]

/-- Witness for C2: appending to the full two-line buffer stays within
the limit and drops the oldest line. -/
theorem C2_log_buffer_bound_witness :
    (emitLog 2 fxLogsFull "line three").length ≤ effLogLimit 2 ∧
    emitLog 2 fxLogsFull "line three" = fxLogsFull.drop 1 ++ ["line three"] :=
  ⟨C2_log_buffer_bound.1 2 fxLogsFull "line three" (by decide),
   C2_log_buffer_bound.2 2 fxLogsFull "line three" (by decide)⟩

/-- Counterexample to C2 as stated: with the limit configured at 2 and
the tracked buffer full (2 lines through `emitLog`), the `Mark as
Running` adoption branch of the port-conflict dialog
(src/src/processManager.ts lines 126-135, src/src/core/processManager.ts
lines 191-200) stores an entry holding 3 = limit + 1 log lines. -/
theorem C2_adoption_overflow :
    fxLogsFull.length = effLogLimit 2 ∧
    (getServiceLogs
      (PMCore.showPortInUseDialog fxEnv true 1 fxSvcApi (some 3000)
        (some ("4242", "node")) fxLogsFull fxStTracked).st fxSvcApi.path).length =
      effLogLimit 2 + 1 := by
  exact ⟨by decide, by decide⟩

/-! ### C4 — restart ceiling, cooldown, and the exit-handler duplicate -/

/-- C4 (amended): the periodic health check (part_006 lines 280-321)
schedules a restart only when the tracked entry's attempt counter is
below 5 and the entry is not within 30 seconds of its recorded last
restart: at the ceiling the entry is dropped and auto-restart stops,
and inside the cooldown window nothing happens; any successful
`startService` call recreates the entry with a zero attempt counter.
The restart logic is nonetheless duplicated in the process exit-event
handler (see the counterexample), and because each restart re-registers
the entry with fresh counters, the ceiling only limits attempts
recorded on one tracked entry, not across restarts. -/
theorem C4_restart_backoff :
    (∀ (st : SupState) (s : Service) (now : Int) (m : ManagedProcess)
       (pr : ProcHandle) (c : Int),
      lookupProc st s.path = some m → m.process = some pr →
      pr.exitCode = some c → 5 ≤ m.restartAttempts →
      PM6.checkServiceHealth st s now = (eraseProc st s.path, false)) ∧
    (∀ (st : SupState) (s : Service) (now : Int) (m : ManagedProcess)
       (pr : ProcHandle) (c t : Int),
      lookupProc st s.path = some m → m.process = some pr →
      pr.exitCode = some c → m.restartAttempts < 5 →
      m.lastRestart = some t → now - t < 30000 →
      PM6.checkServiceHealth st s now = (st, false)) ∧
    (∀ (st : SupState) (s : Service) (now : Int),
      (PM6.checkServiceHealth st s now).2 = true →
      ∃ m, lookupProc st s.path = some m ∧ m.restartAttempts < 5 ∧
        (m.lastRestart = none ∨
         ∃ t, m.lastRestart = some t ∧ 30000 ≤ now - t)) ∧
    (∀ (fuel : Nat) (env : Env) (reg : List Service) (st : SupState) (s : Service),
      (PM6.startService fuel env reg st s).ok = true →
      ∃ m, lookupProc (PM6.startService fuel env reg st s).st s.path = some m ∧
        m.restartAttempts = 0) := by
  refine ⟨?_, ?_, ?_, ?_⟩
  · intro st s now m pr c h1 h2 h3 hmax
    simp only [PM6.checkServiceHealth, h1, h2, h3]
    rw [if_pos hmax]
  · intro st s now m pr c t h1 h2 h3 hlt hlast hcool
    simp only [PM6.checkServiceHealth, h1, h2, h3, hlast]
    rw [if_neg (by omega)]
    rw [if_pos (by simpa using hcool)]
  · intro st s now h
    unfold PM6.checkServiceHealth at h
    split at h
    · simp at h
    · rename_i m h1
      split at h
      · simp at h
      · rename_i pr h2
        split at h
        · simp at h
        · rename_i c h3
          dsimp only at h
          by_cases hmax : 5 ≤ m.restartAttempts
          · rw [if_pos hmax] at h
            simp at h
          · rw [if_neg hmax] at h
            refine ⟨m, h1, by omega, ?_⟩
            cases h4 : m.lastRestart with
            | none => exact Or.inl rfl
            | some t =>
              rw [h4] at h
              by_cases hcool : now - t < 30000
              · rw [if_pos (by simpa using hcool)] at h
                simp at h
              · exact Or.inr ⟨t, rfl, by omega⟩
  · intro fuel env reg st s h
    obtain ⟨m, hm0, hms⟩ := run_inl_ok_tracked env reg fuel st s h
    exact ⟨m, hms, hm0⟩

/-- Witness for C4: the ceiling case, the cooldown case, a due restart,
and a fresh manual start. -/
theorem C4_restart_backoff_witness :
    PM6.checkServiceHealth [("/w", fxEntryMaxed)] fxSvcCrash 100000 =
      (eraseProc [("/w", fxEntryMaxed)] fxSvcCrash.path, false) ∧
    PM6.checkServiceHealth [("/w", fxEntryCooling)] fxSvcCrash 1000 =
      ([("/w", fxEntryCooling)], false) ∧
    (∃ m, lookupProc [("/w", fxEntryCrashed)] fxSvcCrash.path = some m ∧
      m.restartAttempts < 5 ∧
      (m.lastRestart = none ∨ ∃ t, m.lastRestart = some t ∧ 30000 ≤ (0 : Int) - t)) ∧
    (∃ m, lookupProc (PM6.startService 1 fxEnv [] [] fxSvcCrash).st fxSvcCrash.path =
        some m ∧ m.restartAttempts = 0) :=
  ⟨C4_restart_backoff.1 [("/w", fxEntryMaxed)] fxSvcCrash 100000 fxEntryMaxed
     { pid := some 9, exitCode := some 1 } 1 rfl rfl rfl (by decide),
   C4_restart_backoff.2.1 [("/w", fxEntryCooling)] fxSvcCrash 1000 fxEntryCooling
     { pid := some 9, exitCode := some 1 } 1 0 rfl rfl rfl (by decide) rfl (by decide),
   C4_restart_backoff.2.2.1 [("/w", fxEntryCrashed)] fxSvcCrash 0 (by decide),
   C4_restart_backoff.2.2.2 1 fxEnv [] [] fxSvcCrash (by decide)⟩

/-- Counterexample to C4 as stated: the `child.on('exit')` handler of
part_006 (lines 138-150) itself schedules an automatic restart for an
auto-start service exiting with code 1 — restart logic is duplicated
outside the health-check path, with no ceiling or cooldown of its
own. -/
theorem C4_exit_handler_restarts :
    (PM6.onExit fxSvcCrash 100 fxInfoRun (some 1)).2 = true := by decide

/-! ### C5 — empty start command -/

/-- C5 (amended): a service whose command trims to the empty string is
refused — `startService` returns false and the service itself is
neither spawned nor tracked (part_006 lines 103-108,
src/src/core/processManager.ts lines 46-49); but in the
dependency-aware variant the command check runs only after the
dependency phase, so for a service that also declares dependencies,
those dependencies are resolved and started first and their effects
remain — see the counterexample. -/
theorem C5_empty_command_noop :
    (∀ (fuel : Nat) (env : Env) (reg : List Service) (st : SupState) (s : Service),
      jsTrim s.command = "" → parsePort s.command = none →
      lookupProc st s.path = none → s.dependencies = [] →
      PM6.startService (fuel + 1) env reg st s = { ok := false, st := st }) ∧
    (∀ (fuel : Nat) (env : Env) (reg : List Service) (st : SupState) (s : Service),
      jsTrim s.command = "" → parsePort s.command = none →
      lookupProc st s.path = none → s.dependencies.isEmpty = false →
      (PM6.startDependencies fuel env reg st s.dependencies).ok = true →
      PM6.startService (fuel + 1) env reg st s =
        { ok := false
          st := (PM6.startDependencies fuel env reg st s.dependencies).st
          spawned := (PM6.startDependencies fuel env reg st s.dependencies).spawned
          killed := (PM6.startDependencies fuel env reg st s.dependencies).killed }) ∧
    (∀ (env : Env) (st : SupState) (s : Service),
      jsTrim s.command = "" → lookupProc st s.path = none →
      PMCore.startService env st s = { ok := false, st := st }) := by
  refine ⟨?_, ?_, ?_⟩
  · intro fuel env reg st s hc hp hlook hdeps
    have hpp : PM6.portPhase env st s = Sum.inr st := by
      unfold PM6.portPhase
      rw [hp]
    have hsp : PM6.spawnPhase env st s = { ok := false, st := st } := by
      unfold PM6.spawnPhase
      rw [hpp]
      dsimp only
      rw [if_pos hc]
    show PM6.run env reg (fuel + 1) st (Sum.inl s) = _
    simp only [PM6.run]
    rw [if_neg (by simp [hlook])]
    simp [hsp, hdeps]
  · intro fuel env reg st s hc hp hlook hne hdok
    have hpp : ∀ st2, PM6.portPhase env st2 s = Sum.inr st2 := by
      intro st2
      unfold PM6.portPhase
      rw [hp]
    have hsp : ∀ st2, PM6.spawnPhase env st2 s = { ok := false, st := st2 } := by
      intro st2
      unfold PM6.spawnPhase
      rw [hpp]
      dsimp only
      rw [if_pos hc]
    show PM6.run env reg (fuel + 1) st (Sum.inl s) = _
    have hdok2 : (PM6.run env reg fuel st (Sum.inr s.dependencies)).ok = true := hdok
    simp only [PM6.run]
    rw [if_neg (by simp [hlook])]
    simp [hsp, hne, hdok2, PM6.startDependencies]
  · intro env st s hc hlook
    unfold PMCore.startService
    rw [if_neg (by simp [hlook]), if_pos hc]

/-- Witness for C5: a whitespace command without dependencies, the same
with a dependency list whose chain succeeds, and the core variant. -/
theorem C5_empty_command_noop_witness :
    PM6.startService 1 fxEnv [] [] fxSvcBlank = { ok := false, st := [] } ∧
    PM6.startService 6 fxEnv [fxSvcDb] [] fxSvcEmptyCmd =
      { ok := false
        st := (PM6.startDependencies 5 fxEnv [fxSvcDb] [] fxSvcEmptyCmd.dependencies).st
        spawned := (PM6.startDependencies 5 fxEnv [fxSvcDb] [] fxSvcEmptyCmd.dependencies).spawned
        killed := (PM6.startDependencies 5 fxEnv [fxSvcDb] [] fxSvcEmptyCmd.dependencies).killed } ∧
    PMCore.startService fxEnv [] fxSvcBlank = { ok := false, st := [] } :=
  ⟨C5_empty_command_noop.1 0 fxEnv [] [] fxSvcBlank (by decide) (by decide) rfl rfl,
   C5_empty_command_noop.2.1 5 fxEnv [fxSvcDb] [] fxSvcEmptyCmd
     (by decide) (by decide) rfl rfl (by decide),
   C5_empty_command_noop.2.2 fxEnv [] fxSvcBlank (by decide) rfl⟩

/-- Counterexample to C5 as stated: starting a service whose command is
whitespace but which declares the dependency `db` returns false, yet the
dependency has been spawned and is left running — the empty-command
check of part_006 runs only after `startDependencies`. -/
theorem C5_empty_command_starts_dependencies :
    (PM6.startService 5 fxEnv [fxSvcDb] [] fxSvcEmptyCmd).ok = false ∧
    (PM6.startService 5 fxEnv [fxSvcDb] [] fxSvcEmptyCmd).spawned = ["/db"] ∧
    getServiceStatus (PM6.startService 5 fxEnv [fxSvcDb] [] fxSvcEmptyCmd).st "/db" =
      ServiceStatus.running := by
  exact ⟨by decide, by decide, by decide⟩

/-! ### C3 — dependency resolution before spawn -/

/-- C3 (amended): in the dependency-aware `startService` (part_006),
if the dependency phase fails (a dependency that was actually started
returned false, which throws), the whole start returns false and its
only effects are the dependency phase's — the service's own process is
never spawned; and when the dependency phase succeeds, every dependency
name that resolves in the stored services list is tracked in the
resulting state.  However, a dependency is deemed satisfied merely by
being tracked (`processes.has`), even when its process has already
exited, and names that resolve to no stored service are skipped — so a
dependency need not actually reach a running state before the spawn
(see the counterexample). -/
theorem C3_dependency_start :
    (∀ (fuel : Nat) (env : Env) (reg : List Service) (st : SupState) (s : Service),
      lookupProc st s.path = none →
      (PM6.startDependencies fuel env reg st s.dependencies).ok = false →
      PM6.startService (fuel + 1) env reg st s =
        { ok := false
          st := (PM6.startDependencies fuel env reg st s.dependencies).st
          spawned := (PM6.startDependencies fuel env reg st s.dependencies).spawned
          killed := (PM6.startDependencies fuel env reg st s.dependencies).killed }) ∧
    (∀ (fuel : Nat) (env : Env) (reg : List Service) (st : SupState)
       (deps : List String),
      (PM6.startDependencies fuel env reg st deps).ok = true →
      ∀ depName ∈ deps, ∀ d, reg.find? (fun sv => sv.name == depName) = some d →
        (lookupProc (PM6.startDependencies fuel env reg st deps).st d.path).isSome) := by
  constructor
  · intro fuel env reg st s hlook hd
    by_cases hni : s.dependencies.isEmpty
    · exfalso
      have he : s.dependencies = [] := by
        cases hde : s.dependencies with
        | nil => rfl
        | cons a l => rw [hde] at hni; simp at hni
      rw [he] at hd
      simp [PM6.startDependencies, PM6.run] at hd
    · show PM6.run env reg (fuel + 1) st (Sum.inl s) = _
      have hni2 : s.dependencies.isEmpty = false := by simpa using hni
      have hd2 : (PM6.run env reg fuel st (Sum.inr s.dependencies)).ok = false := hd
      simp only [PM6.run]
      rw [if_neg (by simp [hlook])]
      simp [hni2, hd2, PM6.startDependencies]
  · intro fuel env reg st deps
    induction deps generalizing fuel st with
    | nil =>
      intro hok depName hmem
      simp at hmem
    | cons dn rest ih =>
      intro hok depName hmem d hfind
      cases fuel with
      | zero =>
        exfalso
        simp [PM6.startDependencies, PM6.run] at hok
      | succ fuel =>
        simp only [PM6.startDependencies, PM6.run] at hok ⊢
        cases hf : reg.find? (fun sv => sv.name == dn) with
        | none =>
          rw [hf] at hok
          dsimp only at hok ⊢
          rcases List.mem_cons.mp hmem with heq | hmemrest
          · subst heq
            rw [hfind] at hf
            simp at hf
          · exact ih fuel st hok depName hmemrest d hfind
        | some dependency =>
          rw [hf] at hok
          dsimp only at hok ⊢
          by_cases htr : (lookupProc st dependency.path).isSome
          · rw [if_pos htr] at hok ⊢
            rcases List.mem_cons.mp hmem with heq | hmemrest
            · subst heq
              have hd : dependency = d := by
                rw [hf] at hfind
                exact Option.some.inj hfind
              exact run_mono env reg fuel (Sum.inr rest) st d.path (hd ▸ htr)
            · exact ih fuel st hok depName hmemrest d hfind
          · rw [if_neg htr] at hok ⊢
            by_cases hro : (PM6.run env reg fuel st (Sum.inl dependency)).ok = true
            · rw [if_pos hro] at hok ⊢
              dsimp only at hok ⊢
              rcases List.mem_cons.mp hmem with heq | hmemrest
              · subst heq
                have hd2 : dependency = d := by
                  rw [hf] at hfind
                  exact Option.some.inj hfind
                subst hd2
                obtain ⟨m, hm0, hms⟩ := run_inl_ok_tracked env reg fuel st dependency hro
                have hsome : (lookupProc
                    (PM6.run env reg fuel st (Sum.inl dependency)).st
                    dependency.path).isSome := by simp [hms]
                exact run_mono env reg fuel (Sum.inr rest) _ dependency.path hsome
              · exact ih fuel _ hok depName hmemrest d hfind
            · rw [if_neg hro] at hok
              simp at hok

/-- Witness for C3: a dependency whose own start fails aborts the start
of the dependent service with exactly the dependency phase's effects,
and a successful dependency chain leaves the resolved dependency
tracked. -/
theorem C3_dependency_start_witness :
    PM6.startService 6 fxEnv [fxSvcDepBroken] [] fxSvcWithDep =
      { ok := false
        st := (PM6.startDependencies 5 fxEnv [fxSvcDepBroken] [] fxSvcWithDep.dependencies).st
        spawned :=
          (PM6.startDependencies 5 fxEnv [fxSvcDepBroken] [] fxSvcWithDep.dependencies).spawned
        killed :=
          (PM6.startDependencies 5 fxEnv [fxSvcDepBroken] [] fxSvcWithDep.dependencies).killed } ∧
    (lookupProc (PM6.startDependencies 5 fxEnv [fxSvcDb] [] ["db"]).st
      fxSvcDb.path).isSome :=
  ⟨C3_dependency_start.1 5 fxEnv [fxSvcDepBroken] [] fxSvcWithDep rfl (by decide),
   C3_dependency_start.2 5 fxEnv [fxSvcDb] [] ["db"] (by decide) "db" (by simp)
     fxSvcDb (by decide)⟩

/-- Counterexample to C3 as stated: the `db` dependency is tracked but
its process has exited (status stopped); `startDependencies` skips it
because `processes.has` is true, and the dependent service is spawned
anyway — its start succeeds while the dependency is not in a running
state, where the claim demands every dependency be resolved to running
before the spawn. -/
theorem C3_stopped_dependency_skipped :
    (PM6.startService 5 fxEnv [fxSvcDb, fxSvcWithDep] fxStDbStopped fxSvcWithDep).ok =
      true ∧
    (PM6.startService 5 fxEnv [fxSvcDb, fxSvcWithDep] fxStDbStopped fxSvcWithDep).spawned =
      ["/api"] ∧
    getServiceStatus
      (PM6.startService 5 fxEnv [fxSvcDb, fxSvcWithDep] fxStDbStopped fxSvcWithDep).st
      "/db" = ServiceStatus.stopped := by
  exact ⟨by decide, by decide, by decide⟩

/-! ### C8 — services document round trip and the two accepted forms -/

theorem validateService_of_normalized (freshId nowIso : String) (i : Nat)
    (s : Service) (h : normalizedService s) :
    SService.validateService freshId nowIso i s = Except.ok (svcNorm s) := by
  obtain ⟨h1, h2, h3, h4, h5, h6, h7⟩ := h
  unfold SService.validateService svcNorm
  simp [h1, h2, h3, h4, h5, h6, h7]

theorem validateServicesAux_of_normalized (freshId nowIso : String) :
    ∀ (i : Nat) (l : List Service), (∀ s ∈ l, normalizedService s) →
      SService.validateServicesAux freshId nowIso i l =
        Except.ok (l.map svcNorm) := by
  intro i l
  induction l generalizing i with
  | nil => intro _; rfl
  | cons s rest ih =>
    intro h
    have hs := h s (by simp)
    have hrest : ∀ x ∈ rest, normalizedService x := fun x hx => h x (by simp [hx])
    unfold SService.validateServicesAux
    rw [validateService_of_normalized freshId nowIso i s hs, ih (i + 1) hrest]
    rfl

theorem normalizedService_svcNorm (s : Service) (h : normalizedService s) :
    normalizedService (svcNorm s) := h

theorem svcNorm_idem (s : Service) : svcNorm (svcNorm s) = svcNorm s := rfl

/-- C8 (amended): saving a services list with `Storage.saveServices`
and reading it back with `Storage.getServices` returns the same list,
and `Storage.getServices` accepts both the bare-array and the legacy
envelope forms, returning the same list for either; in the
`StorageService` variant, saving a validated list writes the bare-array
form and reading it back returns the same list up to the validator
forcing every status to stopped, and reading an envelope rewrites the
document to the bare-array form.  `Storage.saveServices` itself,
however, always persists the envelope form, so there the document is
not normalized to the array form on write — see the counterexample. -/
theorem C8_roundtrip :
    (∀ services : List Service,
      Storage.getServices (Storage.saveServices services) = services) ∧
    (∀ (services : List Service) (v : String),
      Storage.getServices (ServicesDoc.arr services) = services ∧
      Storage.getServices (ServicesDoc.envelope v services) = services) ∧
    (∀ (freshId nowIso : String) (services : List Service),
      (∀ s ∈ services, normalizedService s) →
      SService.saveServices freshId nowIso services =
        Except.ok (ServicesDoc.arr (services.map svcNorm)) ∧
      SService.getServices freshId nowIso (ServicesDoc.arr (services.map svcNorm)) =
        (services.map svcNorm, ServicesDoc.arr (services.map svcNorm))) ∧
    (∀ (freshId nowIso v : String) (services : List Service),
      (SService.getServices freshId nowIso
        (ServicesDoc.envelope v services)).2 = ServicesDoc.arr services) := by
  refine ⟨fun _ => rfl, fun _ _ => ⟨rfl, rfl⟩, ?_, fun _ _ _ _ => rfl⟩
  intro freshId nowIso services h
  have hnorm : ∀ s ∈ services.map svcNorm, normalizedService s := by
    intro s hs
    obtain ⟨x, hx, rfl⟩ := List.mem_map.mp hs
    exact normalizedService_svcNorm x (h x hx)
  constructor
  · unfold SService.saveServices SService.validateServices
    rw [validateServicesAux_of_normalized freshId nowIso 0 services h]
  · unfold SService.getServices SService.validateServices
    dsimp only
    rw [validateServicesAux_of_normalized freshId nowIso 0 (services.map svcNorm) hnorm]
    simp [List.map_map, Function.comp_def, svcNorm_idem]

/-- Witness for C8: the exact round trip for `Storage`, and the
validated round trip (status forced to stopped) plus array-form write
for `StorageService`, at a concrete one-service list. -/
theorem C8_roundtrip_witness :
    Storage.getServices (Storage.saveServices [fxSvcValid]) = [fxSvcValid] ∧
    SService.saveServices "uuid-1" "2024-06-01" [fxSvcValid] =
      Except.ok (ServicesDoc.arr ([fxSvcValid].map svcNorm)) ∧
    SService.getServices "uuid-1" "2024-06-01" (ServicesDoc.arr ([fxSvcValid].map svcNorm)) =
      ([fxSvcValid].map svcNorm, ServicesDoc.arr ([fxSvcValid].map svcNorm)) :=
  ⟨C8_roundtrip.1 [fxSvcValid],
   (C8_roundtrip.2.2.1 "uuid-1" "2024-06-01" [fxSvcValid] (by decide)).1,
   (C8_roundtrip.2.2.1 "uuid-1" "2024-06-01" [fxSvcValid] (by decide)).2⟩

/-- Counterexample to C8 as stated: after reading a legacy envelope
document, the next `Storage.saveServices` write persists the envelope
`{version, services}` again, not the bare-array form — the document is
not normalized to the array form on write in src/src/storage.ts. -/
theorem C8_save_writes_envelope :
    (Storage.saveServices
      (Storage.getServices (ServicesDoc.envelope "1.0" [fxSvcValid]))).isArrayForm =
      false := by decide

/-! ### C10 — path is the identity key of `Storage.addService` -/

theorem addServiceLoop_mem_paths (inp : Storage.ServiceInput) :
    ∀ (l : List Service) (x : String),
      x ∈ (Storage.addServiceLoop l inp).map Service.path →
      x ∈ l.map Service.path ∨ x = inp.path := by
  intro l
  induction l with
  | nil =>
    intro x hx
    simp [Storage.addServiceLoop, Storage.pushService] at hx
    exact Or.inr hx
  | cons old rest ih =>
    intro x hx
    by_cases he : old.path = inp.path
    · rw [Storage.addServiceLoop, if_pos he] at hx
      simp only [List.map_cons, List.mem_cons] at hx
      rcases hx with hx | hx
      · exact Or.inr (by simpa [Storage.mergeService] using hx)
      · exact Or.inl (by simp [hx])
    · rw [Storage.addServiceLoop, if_neg he] at hx
      simp only [List.map_cons, List.mem_cons] at hx
      rcases hx with hx | hx
      · exact Or.inl (by simp [hx])
      · rcases ih x hx with hh | hh
        · exact Or.inl (by simp [hh])
        · exact Or.inr hh

theorem addServiceLoop_paths_nodup (inp : Storage.ServiceInput) :
    ∀ l : List Service, (l.map Service.path).Nodup →
      ((Storage.addServiceLoop l inp).map Service.path).Nodup := by
  intro l
  induction l with
  | nil =>
    intro _
    simp [Storage.addServiceLoop]
  | cons old rest ih =>
    intro h
    rw [List.map_cons, List.nodup_cons] at h
    obtain ⟨hh1, hh2⟩ := h
    by_cases he : old.path = inp.path
    · rw [Storage.addServiceLoop, if_pos he]
      rw [List.map_cons, List.nodup_cons]
      exact ⟨by simpa [Storage.mergeService, ← he] using hh1, hh2⟩
    · rw [Storage.addServiceLoop, if_neg he]
      rw [List.map_cons, List.nodup_cons]
      refine ⟨?_, ih hh2⟩
      intro hmem
      rcases addServiceLoop_mem_paths inp rest old.path hmem with hh | hh
      · exact hh1 hh
      · exact he hh

/-- C10: `Storage.addService` keeps filesystem path a de-facto identity
key — starting from a services document whose paths are pairwise
distinct, a successful `addService` leaves them pairwise distinct,
because an input whose path matches the first stored entry with that
path merges into it in place (same list shape, merged record at that
position), while an input with a fresh path is appended once
(src/src/storage.ts lines 202-226). -/
theorem C10_addService_path_identity :
    (∀ (doc : ServicesDoc) (inp : Storage.ServiceInput) (doc2 : ServicesDoc),
      ((Storage.getServices doc).map Service.path).Nodup →
      Storage.addService doc inp = Except.ok doc2 →
      ((Storage.getServices doc2).map Service.path).Nodup) ∧
    (∀ (l1 : List Service) (old : Service) (l2 : List Service)
       (inp : Storage.ServiceInput),
      old.path = inp.path → inp.path ∉ l1.map Service.path →
      Storage.addServiceLoop (l1 ++ old :: l2) inp =
        l1 ++ Storage.mergeService old inp :: l2) ∧
    (∀ (l : List Service) (inp : Storage.ServiceInput),
      inp.path ∉ l.map Service.path →
      Storage.addServiceLoop l inp = l ++ [Storage.pushService inp]) := by
  refine ⟨?_, ?_, ?_⟩
  · intro doc inp doc2 hnod hadd
    unfold Storage.addService at hadd
    split at hadd
    · cases hadd
    · cases hadd
      exact addServiceLoop_paths_nodup inp (Storage.getServices doc) hnod
  · intro l1 old l2 inp he hnotin
    induction l1 with
    | nil =>
      rw [List.nil_append, Storage.addServiceLoop, if_pos he]
      rfl
    | cons a r ih =>
      have ha : ¬ a.path = inp.path := by
        intro hc
        exact hnotin (by simp [hc])
      rw [List.cons_append, Storage.addServiceLoop, if_neg ha,
        ih (fun hc => hnotin (by simp [hc]))]
      rfl
  · intro l inp
    induction l with
    | nil =>
      intro _
      rfl
    | cons a r ih =>
      intro hnotin
      have ha : ¬ a.path = inp.path := by
        intro hc
        exact hnotin (by simp [hc])
      rw [Storage.addServiceLoop, if_neg ha, ih (fun hc => hnotin (by simp [hc]))]
      rfl

/-- Witness for C10: adding to a one-service document keeps paths
distinct; re-adding path `/p` merges in place; a fresh path appends. -/
theorem C10_addService_path_identity_witness :
    ((Storage.getServices
      (Storage.saveServices (Storage.addServiceLoop [fxOther] fxInput))).map
        Service.path).Nodup ∧
    Storage.addServiceLoop ([fxOther] ++ Storage.pushService fxInput :: []) fxInput2 =
      [fxOther] ++ Storage.mergeService (Storage.pushService fxInput) fxInput2 :: [] ∧
    Storage.addServiceLoop [fxOther] fxInput = [fxOther] ++ [Storage.pushService fxInput] :=
  ⟨C10_addService_path_identity.1 (ServicesDoc.arr [fxOther]) fxInput
      (Storage.saveServices (Storage.addServiceLoop [fxOther] fxInput))
      (by decide) rfl,
   C10_addService_path_identity.2.1 [fxOther] (Storage.pushService fxInput) []
      fxInput2 rfl (by decide),
   C10_addService_path_identity.2.2 [fxOther] fxInput (by decide)⟩

end Runbar
